import Mathlib

/-!
Shallow embedding of the X-Platform mission core (blast-pattern store,
orchestrator cycle, path planner, navigation executor, filter wiggle,
waypoint loader) together with theorems checking the specification's
claims against it.

Conventions: Python floats are modelled as rationals (serialization of a
float value round-trips exactly) except in the planar-geometry planner,
where real numbers model the exact arithmetic; Python dicts that carry
free-form string data are modelled as association lists; fallible Python
code (exceptions) is modelled with Option / Except.
-/

/-- Status of a hole in the blast pattern (`HoleStatus` in
`core/blast_pattern.py`). -/
inductive HoleStatus where
  | pending
  | inProgress
  | completed
  | failed
  | skipped
deriving DecidableEq, Repr

/-- The serialized string of a status (`HoleStatus.value`). -/
def HoleStatus.value : HoleStatus → String
  | .pending => "pending"
  | .inProgress => "in_progress"
  | .completed => "completed"
  | .failed => "failed"
  | .skipped => "skipped"

/-- Enum lookup `HoleStatus(s)`: the status whose value is `s`, if any. -/
def HoleStatus.ofValue (s : String) : Option HoleStatus :=
  if s = "pending" then some .pending
  else if s = "in_progress" then some .inProgress
  else if s = "completed" then some .completed
  else if s = "failed" then some .failed
  else if s = "skipped" then some .skipped
  else none

/-- Translation part of an `Isometry3F64` (three float coordinates). -/
structure Translation3 where
  x : ℚ
  y : ℚ
  z : ℚ
deriving DecidableEq, Repr

/-- Rotation part of an `Isometry3F64`, as a unit quaternion's
components; `Rotation3F64()` is the identity. -/
structure Rot3 where
  qw : ℚ
  qx : ℚ
  qy : ℚ
  qz : ℚ
deriving DecidableEq, Repr

/-- The identity rotation `Rotation3F64()`. -/
def Rot3.identity : Rot3 := ⟨1, 0, 0, 0⟩

/-- A `Pose3F64`: named frames plus an isometry `a_from_b`. -/
structure Pose3 where
  frame_a : String
  frame_b : String
  translation : Translation3
  rotation : Rot3
deriving DecidableEq, Repr

/-- Free-form measurement mapping (JSON dict of the module's results). -/
abbrev Measurements := List (String × String)

/-- `HoleRecord` from `core/blast_pattern.py`. -/
structure HoleRecord where
  index : ℤ
  position : Pose3
  status : HoleStatus := .pending
  attempts : ℕ := 0
  last_error : Option String := none
  measurements : Measurements := []
  timestamp_completed : Option String := none
deriving DecidableEq, Repr

/-- The JSON dictionary written by `HoleRecord.to_dict`: position is the
translation only (rotation serialization omitted), status is the enum's
string value. -/
structure HoleDict where
  index : ℤ
  x : ℚ
  y : ℚ
  z : ℚ
  status : String
  attempts : ℕ
  last_error : Option String
  measurements : Measurements
  timestamp_completed : Option String
deriving DecidableEq, Repr

/-- `HoleRecord.to_dict`. -/
def HoleRecord.to_dict (h : HoleRecord) : HoleDict :=
  { index := h.index
    x := h.position.translation.x
    y := h.position.translation.y
    z := h.position.translation.z
    status := h.status.value
    attempts := h.attempts
    last_error := h.last_error
    measurements := h.measurements
    timestamp_completed := h.timestamp_completed }

/-- `HoleRecord.from_dict`: rebuilds the pose with frames world/hole and
identity rotation; fails (Python `ValueError`) when the status string is
not a valid enum value. -/
def HoleRecord.from_dict (d : HoleDict) : Option HoleRecord :=
  (HoleStatus.ofValue d.status).map fun st =>
    { index := d.index
      position :=
        { frame_a := "world"
          frame_b := "hole"
          translation := ⟨d.x, d.y, d.z⟩
          rotation := Rot3.identity }
      status := st
      attempts := d.attempts
      last_error := d.last_error
      measurements := d.measurements
      timestamp_completed := d.timestamp_completed }

/-- `BlastPattern` state from `core/blast_pattern.py`. -/
structure BlastPattern where
  mission_name : String
  last_row_index : ℤ
  holes : List HoleRecord
  current_hole_index : Option ℤ
deriving DecidableEq, Repr

/-- `BlastPattern.__init__`: fresh records, indexed by position. -/
def BlastPattern.init (holes : List Pose3) (lastRowWaypointIndex : ℤ)
    (missionName : String) : BlastPattern :=
  { mission_name := missionName
    last_row_index := lastRowWaypointIndex
    holes := holes.mapIdx fun i pose => { index := (i : ℤ), position := pose }
    current_hole_index := none }

/-- `BlastPattern.get_next_hole`: first hole with PENDING status. -/
def BlastPattern.get_next_hole (p : BlastPattern) : Option HoleRecord :=
  p.holes.find? fun h => decide (h.status = .pending)

/-- Guard of `BlastPattern.get_hole`: `0 <= index < len(self.holes)`. -/
def BlastPattern.holds_hole (p : BlastPattern) (index : ℤ) : Prop :=
  0 ≤ index ∧ index.toNat < p.holes.length

instance (p : BlastPattern) (index : ℤ) : Decidable (p.holds_hole index) :=
  inferInstanceAs (Decidable (_ ∧ _))

/-- `BlastPattern.get_hole`: record at list position `index`, or none if
the index is out of `[0, len)`. -/
def BlastPattern.get_hole (p : BlastPattern) (index : ℤ) : Option HoleRecord :=
  if h : p.holds_hole index then
    some (p.holes.get ⟨index.toNat, h.2⟩)
  else none

/-- Replace the element at position `n` by `f` of it (Python
`self.holes[index]` in-place mutation). -/
def listModify (f : α → α) : ℕ → List α → List α
  | _, [] => []
  | 0, a :: as => f a :: as
  | n + 1, a :: as => a :: listModify f n as

/-- `BlastPattern.mark_in_progress`: valid index sets IN_PROGRESS,
increments attempts, records the current index; invalid index is a no-op
(`get_hole` returned None, so the `if hole:` body is skipped). -/
def BlastPattern.mark_in_progress (p : BlastPattern) (index : ℤ) : BlastPattern :=
  if p.holds_hole index then
    { p with
      holes := listModify
        (fun h => { h with status := .inProgress, attempts := h.attempts + 1 })
        index.toNat p.holes
      current_hole_index := some index }
  else p

/-- `BlastPattern.mark_completed`: sets COMPLETED and the completion
timestamp; replaces measurements only when the argument is a non-empty
dict (Python truthiness of `if measurements:`). -/
def BlastPattern.mark_completed (p : BlastPattern) (index : ℤ) (now : String)
    (meas : Option Measurements) : BlastPattern :=
  if p.holds_hole index then
    { p with
      holes := listModify
        (fun h =>
          { h with
            status := .completed
            timestamp_completed := some now
            measurements :=
              match meas with
              | some m => if m = [] then h.measurements else m
              | none => h.measurements })
        index.toNat p.holes }
  else p

/-- `BlastPattern.mark_failed`. -/
def BlastPattern.mark_failed (p : BlastPattern) (index : ℤ) (error : String) :
    BlastPattern :=
  if p.holds_hole index then
    { p with
      holes := listModify
        (fun h => { h with status := .failed, last_error := some error })
        index.toNat p.holes }
  else p

/-- `BlastPattern.mark_skipped`. -/
def BlastPattern.mark_skipped (p : BlastPattern) (index : ℤ) (reason : String) :
    BlastPattern :=
  if p.holds_hole index then
    { p with
      holes := listModify
        (fun h => { h with status := .skipped, last_error := some reason })
        index.toNat p.holes }
  else p

/-- `BlastPattern.is_complete`. -/
def BlastPattern.is_complete (p : BlastPattern) : Bool :=
  p.holes.all fun h =>
    decide (h.status = .completed ∨ h.status = .failed ∨ h.status = .skipped)

/-- `BlastPattern.is_echelon_end`: `(index + 1) % (last_row_index + 1) == 0`
(Python modulo on a positive modulus coincides with `Int.emod`). -/
def BlastPattern.is_echelon_end (p : BlastPattern) (index : ℤ) : Bool :=
  (index + 1) % (p.last_row_index + 1) == 0

/-- `BlastPattern.get_completion_stats`: counts per status plus total. -/
def BlastPattern.get_completion_stats (p : BlastPattern) : List (String × ℕ) :=
  [ ("total", p.holes.length)
  , ("pending", (p.holes.filter fun h => decide (h.status = .pending)).length)
  , ("in_progress", (p.holes.filter fun h => decide (h.status = .inProgress)).length)
  , ("completed", (p.holes.filter fun h => decide (h.status = .completed)).length)
  , ("failed", (p.holes.filter fun h => decide (h.status = .failed)).length)
  , ("skipped", (p.holes.filter fun h => decide (h.status = .skipped)).length) ]

/-- The JSON state blob written by `BlastPattern.save_state`. -/
structure SavedState where
  mission_name : String
  last_row_index : ℤ
  current_hole_index : Option ℤ
  timestamp : String
  holes : List HoleDict
  stats : List (String × ℕ)
deriving DecidableEq, Repr

/-- `BlastPattern.save_state` (the wall-clock timestamp is a parameter). -/
def BlastPattern.save_state (p : BlastPattern) (now : String) : SavedState :=
  { mission_name := p.mission_name
    last_row_index := p.last_row_index
    current_hole_index := p.current_hole_index
    timestamp := now
    holes := p.holes.map HoleRecord.to_dict
    stats := p.get_completion_stats }

/-- Evaluate a fallible function over a list, failing on the first
failure (a Python list comprehension whose body may raise). -/
def traverseOption (f : α → Option β) : List α → Option (List β)
  | [] => some []
  | a :: as =>
    match f a, traverseOption f as with
    | some b, some bs => some (b :: bs)
    | _, _ => none

/-- `BlastPattern.load_state`: rebuilds every record with
`HoleRecord.from_dict` (fails if any status string is invalid), then
restores the saved records and current index over a fresh instance. -/
def BlastPattern.load_state (state : SavedState) : Option BlastPattern :=
  (traverseOption HoleRecord.from_dict state.holes).map fun holes =>
    { mission_name := state.mission_name
      last_row_index := state.last_row_index
      holes := holes
      current_hole_index := state.current_hole_index }

/-- The record a hole becomes after a serialize/deserialize round trip:
every scalar field is kept, the pose keeps its translation but gets the
world/hole frames and the identity rotation. -/
def reloadHole (h : HoleRecord) : HoleRecord :=
  { h with
    position :=
      { frame_a := "world"
        frame_b := "hole"
        translation := h.position.translation
        rotation := Rot3.identity } }

theorem from_dict_to_dict (h : HoleRecord) :
    HoleRecord.from_dict h.to_dict = some (reloadHole h) := by
  cases h with
  | mk index position status attempts last_error measurements timestamp_completed =>
    cases status <;> rfl

theorem mapM_from_dict_map_to_dict (l : List HoleRecord) :
    traverseOption HoleRecord.from_dict (l.map HoleRecord.to_dict) =
      some (l.map reloadHole) := by
  induction l with
  | nil => rfl
  | cons a as ih =>
    simp [traverseOption, from_dict_to_dict, ih]

/-- C1: loading the saved state of any blast pattern succeeds and yields a
pattern equal to the original on mission_name, last_row_index and
current_hole_index, whose holes agree element-wise on index, status,
attempts, last_error, measurements and timestamp_completed, with each
hole's translation preserved and its rotation collapsed to the identity. -/
theorem claim_C1_pattern_roundtrip (p : BlastPattern) (now : String) :
    ∃ q, BlastPattern.load_state (p.save_state now) = some q ∧
      q.mission_name = p.mission_name ∧
      q.last_row_index = p.last_row_index ∧
      q.current_hole_index = p.current_hole_index ∧
      List.Forall₂ (fun a b =>
        a.index = b.index ∧ a.status = b.status ∧ a.attempts = b.attempts ∧
        a.last_error = b.last_error ∧ a.measurements = b.measurements ∧
        a.timestamp_completed = b.timestamp_completed ∧
        a.position.translation = b.position.translation ∧
        a.position.rotation = Rot3.identity) q.holes p.holes := by
  refine ⟨{ mission_name := p.mission_name
            last_row_index := p.last_row_index
            holes := p.holes.map reloadHole
            current_hole_index := p.current_hole_index }, ?_, rfl, rfl, rfl, ?_⟩
  · simp [BlastPattern.load_state, BlastPattern.save_state,
      mapM_from_dict_map_to_dict]
  · induction p.holes with
    | nil => exact List.Forall₂.nil
    | cons a as ih =>
      exact List.Forall₂.cons ⟨rfl, rfl, rfl, rfl, rfl, rfl, rfl, rfl⟩ ih

/-- C10: for every index outside [0, number of holes), each of the four
mark operations raises no error and leaves the pattern (every hole record
and current_hole_index) unchanged. -/
theorem claim_C10_out_of_range_noop (p : BlastPattern) (i : ℤ)
    (now err reason : String) (meas : Option Measurements)
    (h : i < 0 ∨ (p.holes.length : ℤ) ≤ i) :
    p.mark_in_progress i = p ∧ p.mark_completed i now meas = p ∧
      p.mark_failed i err = p ∧ p.mark_skipped i reason = p := by
  have hc : ¬ p.holds_hole i := by
    rintro ⟨h0, hlt⟩
    rcases h with h | h <;> omega
  refine ⟨?_, ?_, ?_, ?_⟩ <;>
    simp [BlastPattern.mark_in_progress, BlastPattern.mark_completed,
      BlastPattern.mark_failed, BlastPattern.mark_skipped, hc]

/-- A concrete hole pose used by the concrete test patterns. -/
def cxPose : Pose3 :=
  { frame_a := "world", frame_b := "hole"
    translation := ⟨1, 2, 0⟩, rotation := Rot3.identity }

/-- A concrete two-hole pattern, both holes pending. -/
def cxPattern : BlastPattern := BlastPattern.init [cxPose, cxPose] 3 "m"

/-- C10 witness: marking index 5 of a two-hole pattern is a no-op for all
four operations. -/
theorem claim_C10_witness :
    cxPattern.mark_in_progress 5 = cxPattern ∧
      cxPattern.mark_completed 5 "t" none = cxPattern ∧
      cxPattern.mark_failed 5 "e" = cxPattern ∧
      cxPattern.mark_skipped 5 "r" = cxPattern :=
  claim_C10_out_of_range_noop cxPattern 5 "t" "e" "r" none (by decide)

/-- One mission-store mutation, as invocable by the orchestrator. -/
inductive MarkOp where
  | markInProgress (i : ℤ)
  | markCompleted (i : ℤ) (now : String) (meas : Option Measurements)
  | markFailed (i : ℤ) (err : String)
  | markSkipped (i : ℤ) (reason : String)

/-- Apply one mark operation to the store. -/
def applyMark (p : BlastPattern) : MarkOp → BlastPattern
  | .markInProgress i => p.mark_in_progress i
  | .markCompleted i now meas => p.mark_completed i now meas
  | .markFailed i err => p.mark_failed i err
  | .markSkipped i reason => p.mark_skipped i reason

/-- Apply a sequence of mark operations, left to right. -/
def applyMarks (p : BlastPattern) (ops : List MarkOp) : BlastPattern :=
  ops.foldl applyMark p

/-- Whether an op is a `mark_in_progress` aimed at list position `j`
(such a call increments that hole's attempts when `j` is in range). -/
def opIncrements (j : ℕ) : MarkOp → Bool
  | .markInProgress i => decide (0 ≤ i ∧ i.toNat = j)
  | _ => false

theorem listModify_getElem (f : α → α) (n : ℕ) (l : List α) (j : ℕ) :
    (listModify f n l)[j]? = if j = n then l[j]?.map f else l[j]? := by
  induction l generalizing n j with
  | nil => simp [listModify]
  | cons a as ih =>
    cases n with
    | zero =>
      cases j with
      | zero => simp [listModify]
      | succ j => simp [listModify]
    | succ n =>
      cases j with
      | zero => simp [listModify]
      | succ j => simpa [listModify] using ih n j

theorem listModify_length (f : α → α) (n : ℕ) (l : List α) :
    (listModify f n l).length = l.length := by
  induction l generalizing n with
  | nil => simp [listModify]
  | cons a as ih =>
    cases n with
    | zero => simp [listModify]
    | succ n => simp [listModify, ih]

theorem getElem_lt_of_some {l : List α} {j : ℕ} {a : α}
    (h : l[j]? = some a) : j < l.length := by
  by_contra hc
  rw [List.getElem?_eq_none (by omega)] at h
  exact Option.noConfusion h

theorem applyMark_getElem (p : BlastPattern) (op : MarkOp) (j : ℕ)
    (h : HoleRecord) (hj : p.holes[j]? = some h) :
    ∃ h', (applyMark p op).holes[j]? = some h' ∧
      (h'.status = h.status ∨ h'.status ≠ .pending) ∧
      h'.attempts = h.attempts + (if opIncrements j op then 1 else 0) := by
  have hlen : j < p.holes.length := getElem_lt_of_some hj
  cases op with
  | markInProgress i =>
    by_cases hc : p.holds_hole i
    · by_cases hji : j = i.toNat
      · subst hji
        refine ⟨{ h with status := .inProgress, attempts := h.attempts + 1 },
          ?_, Or.inr (by simp), ?_⟩
        · simp [applyMark, BlastPattern.mark_in_progress, hc,
            listModify_getElem, hj]
        · have ht : opIncrements i.toNat (.markInProgress i) = true := by
            simp [opIncrements, hc.1]
          simp [ht]
      · refine ⟨h, ?_, Or.inl rfl, ?_⟩
        · simp [applyMark, BlastPattern.mark_in_progress, hc,
            listModify_getElem, hji, hj]
        · have ht : opIncrements j (.markInProgress i) = false := by
            simp [opIncrements]
            omega
          simp [ht]
    · refine ⟨h, by simp [applyMark, BlastPattern.mark_in_progress, hc, hj],
        Or.inl rfl, ?_⟩
      have ht : opIncrements j (.markInProgress i) = false := by
        simp [opIncrements]
        intro h0 hji
        exact absurd ⟨h0, by omega⟩ hc
      simp [ht]
  | markCompleted i now meas =>
    by_cases hc : p.holds_hole i
    · by_cases hji : j = i.toNat
      · subst hji
        refine ⟨{ h with
                    status := .completed,
                    timestamp_completed := some now,
                    measurements :=
                      (match meas with
                      | some m => if m = [] then h.measurements else m
                      | none => h.measurements) },
          ?_, Or.inr (by simp), by simp [opIncrements]⟩
        simp [applyMark, BlastPattern.mark_completed, hc,
          listModify_getElem, hj]
      · exact ⟨h, by simp [applyMark, BlastPattern.mark_completed, hc,
          listModify_getElem, hji, hj], Or.inl rfl, by simp [opIncrements]⟩
    · exact ⟨h, by simp [applyMark, BlastPattern.mark_completed, hc, hj],
        Or.inl rfl, by simp [opIncrements]⟩
  | markFailed i err =>
    by_cases hc : p.holds_hole i
    · by_cases hji : j = i.toNat
      · subst hji
        refine ⟨{ h with status := .failed, last_error := some err },
          ?_, Or.inr (by simp), by simp [opIncrements]⟩
        simp [applyMark, BlastPattern.mark_failed, hc,
          listModify_getElem, hj]
      · exact ⟨h, by simp [applyMark, BlastPattern.mark_failed, hc,
          listModify_getElem, hji, hj], Or.inl rfl, by simp [opIncrements]⟩
    · exact ⟨h, by simp [applyMark, BlastPattern.mark_failed, hc, hj],
        Or.inl rfl, by simp [opIncrements]⟩
  | markSkipped i reason =>
    by_cases hc : p.holds_hole i
    · by_cases hji : j = i.toNat
      · subst hji
        refine ⟨{ h with status := .skipped, last_error := some reason },
          ?_, Or.inr (by simp), by simp [opIncrements]⟩
        simp [applyMark, BlastPattern.mark_skipped, hc,
          listModify_getElem, hj]
      · exact ⟨h, by simp [applyMark, BlastPattern.mark_skipped, hc,
          listModify_getElem, hji, hj], Or.inl rfl, by simp [opIncrements]⟩
    · exact ⟨h, by simp [applyMark, BlastPattern.mark_skipped, hc, hj],
        Or.inl rfl, by simp [opIncrements]⟩

theorem applyMarks_getElem (ops : List MarkOp) (p : BlastPattern) (j : ℕ)
    (h : HoleRecord) (hj : p.holes[j]? = some h) (hs : h.status ≠ .pending) :
    ∃ h', (applyMarks p ops).holes[j]? = some h' ∧ h'.status ≠ .pending ∧
      h'.attempts = h.attempts + ops.countP (opIncrements j) := by
  induction ops generalizing p h with
  | nil => exact ⟨h, hj, hs, by simp [applyMarks]⟩
  | cons op rest ih =>
    obtain ⟨h1, hj1, hst1, hat1⟩ := applyMark_getElem p op j h hj
    have hs1 : h1.status ≠ .pending := by
      rcases hst1 with e | e
      · rw [e]; exact hs
      · exact e
    obtain ⟨h2, hj2, hs2, hat2⟩ := ih (applyMark p op) h1 hj1 hs1
    refine ⟨h2, ?_, hs2, ?_⟩
    · simpa [applyMarks] using hj2
    · rw [hat2, hat1, List.countP_cons]
      cases hIf : opIncrements j op <;> (simp [hIf]; try omega)

/-- C2 (amended): once a hole is COMPLETED, FAILED or SKIPPED, no
sequence of subsequent mark operations ever returns it to PENDING, so
get_next_hole never returns that hole; its attempts counter grows by
exactly one per in-range mark_in_progress aimed at it (regardless of its
prior status), and by nothing else. (The original claim's stronger parts
fail: mark operations do not leave a terminal hole's status unchanged,
and attempts does not increment only on PENDING-to-IN_PROGRESS.) -/
theorem claim_C2_amended_terminal_not_revisited (p : BlastPattern)
    (ops : List MarkOp) (j : ℕ) (h : HoleRecord)
    (hj : p.holes[j]? = some h)
    (hterm : h.status = .completed ∨ h.status = .failed ∨ h.status = .skipped) :
    ∃ h', (applyMarks p ops).holes[j]? = some h' ∧
      h'.status ≠ .pending ∧
      h'.attempts = h.attempts + ops.countP (opIncrements j) ∧
      ∀ r, (applyMarks p ops).get_next_hole = some r → r ≠ h' := by
  have hs : h.status ≠ .pending := by
    rcases hterm with e | e | e <;> simp [e]
  obtain ⟨h', a, b, c⟩ := applyMarks_getElem ops p j h hj hs
  refine ⟨h', a, b, c, ?_⟩
  intro r hr hre
  have hfind := List.find?_some hr
  have hrp : r.status = .pending := of_decide_eq_true hfind
  exact b (hre ▸ hrp)

/-- The concrete pattern with hole 0 already COMPLETED (and hole 1 still
pending). -/
def cxPatternDone : BlastPattern := cxPattern.mark_completed 0 "t0" none

/-- C2 counterexample: on a COMPLETED hole, mark_in_progress changes the
status to IN_PROGRESS (a subsequent store operation does not leave a
terminal hole's status unchanged) and increments attempts on a
COMPLETED-to-IN_PROGRESS transition, not a PENDING-to-IN_PROGRESS one. -/
theorem claim_C2_counterexample :
    cxPatternDone.holes.map HoleRecord.status = [.completed, .pending] ∧
      (cxPatternDone.mark_in_progress 0).holes.map HoleRecord.status
        = [.inProgress, .pending] ∧
      cxPatternDone.holes.map HoleRecord.attempts = [0, 0] ∧
      (cxPatternDone.mark_in_progress 0).holes.map HoleRecord.attempts
        = [1, 0] := by
  refine ⟨?_, ?_, ?_, ?_⟩ <;> rfl

/-- Record of hole 0 in `cxPatternDone` (completed at timestamp t0). -/
def cxDoneHole0 : HoleRecord :=
  { index := 0, position := cxPose, status := .completed, attempts := 0,
    last_error := none, measurements := [], timestamp_completed := some "t0" }

/-- C2 witness: instantiating the amended theorem on the concrete
completed hole 0 under a reopen-then-fail sequence. -/
theorem claim_C2_amended_witness :
    ∃ h', (applyMarks cxPatternDone
        [.markInProgress 0, .markFailed 0 "e"]).holes[0]? = some h' ∧
      h'.status ≠ .pending ∧
      h'.attempts = cxDoneHole0.attempts +
        ([MarkOp.markInProgress 0, .markFailed 0 "e"].countP (opIncrements 0)) ∧
      ∀ r, (applyMarks cxPatternDone
          [.markInProgress 0, .markFailed 0 "e"]).get_next_hole = some r →
        r ≠ h' :=
  claim_C2_amended_terminal_not_revisited cxPatternDone
    [.markInProgress 0, .markFailed 0 "e"] 0 cxDoneHole0
    (by rfl) (Or.inl rfl)

/-- A hole dictionary of the concrete saved mission state used to check
resume behaviour (translation at (i, 0, 0)). -/
def s6Hole (i : ℤ) (st : String) (att : ℕ) : HoleDict :=
  { index := i, x := (i : ℚ), y := 0, z := 0, status := st, attempts := att,
    last_error := none, measurements := [], timestamp_completed := none }

/-- A saved state in which hole 0 is completed, hole 1 was IN_PROGRESS
when the state was saved, and hole 2 is pending (spec scenario S6). -/
def s6State : SavedState :=
  { mission_name := "mission_s6", last_row_index := 7,
    current_hole_index := some 1, timestamp := "t",
    holes := [s6Hole 0 "completed" 1, s6Hole 1 "in_progress" 1,
      s6Hole 2 "pending" 0],
    stats := [] }

/-- C4: evaluated at the S6 saved state, load_state keeps hole 1
IN_PROGRESS (it is not treated as PENDING), so get_next_hole skips it and
returns the hole with index 2 — against the claim that the lowest-index
non-terminal hole (index 1) is returned with preserved attempts. -/
theorem claim_C4_code_divergence :
    (BlastPattern.load_state s6State).map (fun q =>
        (q.holes.map HoleRecord.status,
         q.get_next_hole.map HoleRecord.index,
         q.holes.map HoleRecord.attempts))
      = some ([.completed, .inProgress, .pending], some 2, [1, 1, 0]) := by
  rfl

/-- Per-cycle oracle for the orchestrator main loop of `main.py`: the
outcomes of the navigation tracks, vision and the module at this hole. -/
structure CycleOracle where
  approachOk : Bool
  visionDetects : Bool
  finalOk : Bool
  moduleSuccess : Bool
  moduleError : Option String
  moduleMeasurements : Option Measurements
  now : String

/-- Observable events of one orchestrator cycle (`XStemNavigator.run`). -/
inductive Ev where
  | allComplete
  | evMarkInProgress (i : ℤ)
  | rowEndManeuver
  | planApproach (i : ℤ)
  | execTrack (ok : Bool)
  | detectPhase
  | moduleExec (i : ℤ)
  | evMarkCompleted (i : ℤ)
  | evMarkFailed (i : ℤ)
deriving DecidableEq, Repr

/-- One iteration of the main loop in `XStemNavigator.run`: fetch the
next pending hole, mark it in progress, and either run the row-end
maneuver and mark the hole completed (echelon-end branch, lines 189-194
of `main.py`) or navigate, optionally detect, execute the final track,
run the module and record its outcome. Returns the new pattern and the
cycle's event trace in program order. -/
def runCycle (p : BlastPattern) (o : CycleOracle) : BlastPattern × List Ev :=
  match p.get_next_hole with
  | none => (p, [.allComplete])
  | some hole =>
    let i := hole.index
    let p1 := p.mark_in_progress i
    if p1.is_echelon_end i then
      (p1.mark_completed i o.now none,
        [.evMarkInProgress i, .rowEndManeuver, .evMarkCompleted i])
    else if !o.approachOk then
      (p1, [.evMarkInProgress i, .planApproach i, .execTrack false])
    else if !o.finalOk then
      (p1, [.evMarkInProgress i, .planApproach i, .execTrack true,
        .detectPhase, .execTrack false])
    else if o.moduleSuccess then
      (p1.mark_completed i o.now o.moduleMeasurements,
        [.evMarkInProgress i, .planApproach i, .execTrack true,
          .detectPhase, .execTrack true, .moduleExec i, .evMarkCompleted i])
    else
      (p1.mark_failed i ((o.moduleError).getD "Unknown error"),
        [.evMarkInProgress i, .planApproach i, .execTrack true,
          .detectPhase, .execTrack true, .moduleExec i, .evMarkFailed i])

/-- Run successive cycles, concatenating their event traces. -/
def runCycles (p : BlastPattern) : List CycleOracle → BlastPattern × List Ev
  | [] => (p, [])
  | o :: os =>
    let r := runCycle p o
    let rest := runCycles r.1 os
    (rest.1, r.2 ++ rest.2)

/-- The all-success cycle oracle. -/
def okCycle : CycleOracle :=
  { approachOk := true, visionDetects := false, finalOk := true,
    moduleSuccess := true, moduleError := none, moduleMeasurements := none,
    now := "t" }

/-- The S2 pattern: four holes with last_row_index 3, so hole 3 is an
echelon end. -/
def s2Pattern : BlastPattern :=
  BlastPattern.init [cxPose, cxPose, cxPose, cxPose] 3 "s2"

/-- C3: evaluated on the S2 scenario (4 holes, last_row_index 3, every
track and module call succeeding), hole 3 is an echelon end and the
orchestrator's cycle for it performs the row-end maneuver and marks the
hole COMPLETED without ever executing the module at it — against the
claim that the module runs at every hole (echelon ends included) and that
a hole is marked COMPLETED only after the module has run at it. -/
theorem claim_C3_code_divergence :
    s2Pattern.is_echelon_end 3 = true ∧
      (runCycles s2Pattern [okCycle, okCycle, okCycle, okCycle]).2.count
        (.moduleExec 3) = 0 ∧
      (runCycles s2Pattern [okCycle, okCycle, okCycle, okCycle]).2.count
        (.evMarkCompleted 3) = 1 ∧
      (runCycles s2Pattern [okCycle, okCycle, okCycle, okCycle]).2.count
        (.rowEndManeuver) = 1 ∧
      ((runCycles s2Pattern [okCycle, okCycle, okCycle, okCycle]).1.holes.map
        HoleRecord.status) = [.completed, .completed, .completed, .completed] := by
  refine ⟨rfl, ?_, ?_, ?_, rfl⟩ <;> rfl

/-- A `Twist2d` velocity command sent on the CAN bus. -/
structure Twist2d where
  linear_velocity_x : ℚ
  angular_velocity : ℚ
deriving DecidableEq, Repr

/-- The zero-velocity (stop) command. -/
def stopTwist : Twist2d := ⟨0, 0⟩

/-- CAN commands of one wiggle attempt of `imu_wiggle`: four alternating
direction holds (each direction re-sent `sends` times at 20 Hz, where
`sends` depends on wall-clock time) followed by the stop command. -/
def wiggleAttemptTrace (av : ℚ) (sends : ℕ) : List Twist2d :=
  (List.replicate sends ⟨0, av⟩ ++ List.replicate sends ⟨0, -av⟩ ++
    List.replicate sends ⟨0, av⟩ ++ List.replicate sends ⟨0, -av⟩) ++
  [stopTwist]

/-- The attempt loop of `imu_wiggle` (`while attempt < max_attempts`):
each attempt wiggles and stops; with a filter client and convergence
checking enabled, it returns true as soon as the filter converges, else
retries; without checking it returns true after one attempt; fuel
exhaustion returns false. Returns the result and the CAN command trace. -/
def wiggleLoop (fp cc : Bool) (conv : ℕ → Bool) (av : ℚ) (sends : ℕ) :
    ℕ → ℕ → Bool × List Twist2d
  | 0, _ => (false, [])
  | n + 1, attempt =>
    let t := wiggleAttemptTrace av sends
    if fp && cc then
      if conv attempt then (true, t)
      else
        let r := wiggleLoop fp cc conv av sends n (attempt + 1)
        (r.1, t ++ r.2)
    else (true, t)

/-- `imu_wiggle` from `hardware/filter_utils.py`: with a filter client
and convergence checking, an initially-converged filter returns true
immediately (no commands sent); otherwise the attempt loop runs.
`fp` is whether a filter client was passed, `cc` the check_convergence
flag, `conv n` the convergence observed after attempt `n`. -/
def imu_wiggle (fp cc initConv : Bool) (conv : ℕ → Bool)
    (maxAttempts : ℕ) (av : ℚ) (sends : ℕ) : Bool × List Twist2d :=
  if fp && cc && initConv then (true, [])
  else wiggleLoop fp cc conv av sends maxAttempts 1

theorem wiggleAttemptTrace_getLast (av : ℚ) (sends : ℕ) :
    (wiggleAttemptTrace av sends).getLast? = some stopTwist := by
  simp [wiggleAttemptTrace]

theorem getLast_append_of_getLast {l₂ : List α} (l₁ : List α) {a : α}
    (h : l₂.getLast? = some a) : (l₁ ++ l₂).getLast? = some a := by
  cases l₂ with
  | nil => simp at h
  | cons b bs => rw [List.getLast?_append_cons]; exact h

theorem wiggleLoop_succ_getLast (fp cc : Bool) (conv : ℕ → Bool) (av : ℚ)
    (sends : ℕ) (n attempt : ℕ) :
    (wiggleLoop fp cc conv av sends (n + 1) attempt).2.getLast?
      = some stopTwist := by
  induction n generalizing attempt with
  | zero =>
    rw [wiggleLoop]
    cases hfc : fp && cc with
    | false => simpa [hfc] using wiggleAttemptTrace_getLast av sends
    | true =>
      cases hcv : conv attempt with
      | false =>
        simpa [hfc, hcv, wiggleLoop] using wiggleAttemptTrace_getLast av sends
      | true => simpa [hfc, hcv] using wiggleAttemptTrace_getLast av sends
  | succ k ih =>
    rw [wiggleLoop]
    cases hfc : fp && cc with
    | false => simpa [hfc] using wiggleAttemptTrace_getLast av sends
    | true =>
      cases hcv : conv attempt with
      | false =>
        simp only [hfc, hcv, if_true, Bool.false_eq_true, if_false]
        exact getLast_append_of_getLast _ (ih (attempt + 1))
      | true => simpa [hfc, hcv] using wiggleAttemptTrace_getLast av sends

/-- C7 (amended): every normal return of imu_wiggle that is reached
after entering the wiggle loop — i.e. when the filter was not already
converged at entry and max_attempts is at least 1 — has the
zero-velocity twist as the last CAN command issued before returning,
for the convergence return, the no-check return and the
exhausted-attempts failure return alike. (The original claim fails on
the already-converged early return, which sends no command at all, and
on cancellation, which the function does not intercept.) -/
theorem claim_C7_amended_wiggle_safety (fp cc initConv : Bool)
    (conv : ℕ → Bool) (maxAttempts : ℕ) (av : ℚ) (sends : ℕ)
    (hEnter : (fp && cc && initConv) = false) (hA : 1 ≤ maxAttempts) :
    ((imu_wiggle fp cc initConv conv maxAttempts av sends).2).getLast?
      = some stopTwist := by
  rw [imu_wiggle, if_neg (by simp [hEnter])]
  obtain ⟨m, rfl⟩ : ∃ m, maxAttempts = m + 1 :=
    ⟨maxAttempts - 1, by omega⟩
  exact wiggleLoop_succ_getLast fp cc conv av sends m 1

/-- C7 counterexample: (1) when the filter is already converged at
entry, imu_wiggle returns true having sent no CAN command at all, so
this exit is not preceded by a zero-velocity command; (2) the commands
sent up to the first inter-send await of a real run form a single
nonzero twist, so a cancellation delivered at that await point (the
code installs no try/finally) propagates with no zero-velocity command
ever issued. -/
theorem claim_C7_counterexample :
    imu_wiggle true true true (fun _ => false) 3 (3/10) 2 = (true, []) ∧
      (imu_wiggle true true false (fun _ => false) 3 (3/10) 2).2.take 1
        = [⟨0, 3/10⟩] ∧
      (Twist2d.angular_velocity ⟨0, 3/10⟩ ≠ 0) := by
  refine ⟨rfl, rfl, by norm_num⟩

/-- C7 witness: the amended theorem at a concrete diverged run with
three failing attempts. -/
theorem claim_C7_amended_witness :
    ((imu_wiggle true true false (fun _ => false) 3 (3/10) 2).2).getLast?
      = some stopTwist :=
  claim_C7_amended_wiggle_safety true true false (fun _ => false) 3 (3/10) 2
    (by decide) (by decide)

/-- The internal asyncio.Event latches of `NavigationManager`, set by the
background state monitor when the follower reports a terminal status. -/
structure Latches where
  track_complete : Bool
  track_failed : Bool
deriving DecidableEq, Repr

/-- Protocol actions performed by `NavigationManager.execute_track`. -/
inductive NavAct where
  | clearLatches
  | setTrack
  | sleepSettle
  | start
  | waitLatches
  | cancel
deriving DecidableEq, Repr

/-- What the concurrent wait observed before the timeout: either neither
latch fired in time, or the latch values at the moment the wait returned
(at least one of them set). -/
inductive WaitOutcome where
  | timeout
  | latched (complete failed : Bool)
deriving DecidableEq, Repr

/-- `NavigationManager.execute_track`: clears both latches, issues
set_track, sleeps the track-load settle interval, issues start, then
waits for either latch or the timeout. On timeout it cancels and returns
false; otherwise it returns `track_complete.is_set()`. Returns the
result, the final latch state, and the action trace. -/
def execute_track (s : Latches) (o : WaitOutcome) :
    Bool × Latches × List NavAct :=
  let s1 : Latches := { s with track_complete := false }
  let s2 : Latches := { s1 with track_failed := false }
  let acts : List NavAct :=
    [.clearLatches, .setTrack, .sleepSettle, .start, .waitLatches]
  match o with
  | .timeout => (false, s2, acts ++ [.cancel])
  | .latched c f =>
    let s3 : Latches := ⟨s2.track_complete || c, s2.track_failed || f⟩
    (s3.track_complete, s3, acts)

/-- C8: execute_track clears both latches first and then performs
set_track, the settle sleep, start and the latch/timeout wait in that
order; on timeout it additionally cancels and returns false; otherwise
it returns true exactly when the complete latch was observed set — in
particular false whenever only the failed latch fired — and the result
is independent of the latch state left behind by any previous execution,
so a fresh execute_track is valid afterwards. -/
theorem claim_C8_execute_track_protocol (s : Latches) (o : WaitOutcome) :
    (execute_track s o).2.2 =
        [.clearLatches, .setTrack, .sleepSettle, .start, .waitLatches] ++
          (if o = .timeout then [.cancel] else []) ∧
      (execute_track s o).1 =
        (match o with | .timeout => false | .latched c _ => c) ∧
      (∀ c f, o = .latched c f → ((execute_track s o).1 = true ↔ c = true)) ∧
      (∀ f, o = .latched false f → (execute_track s o).1 = false) ∧
      (∀ s', execute_track s' o = execute_track s o) := by
  cases o with
  | timeout =>
    refine ⟨rfl, rfl, ?_, ?_, fun s' => rfl⟩ <;> intros <;> simp_all
  | latched c f =>
    refine ⟨by simp [execute_track], by simp [execute_track], ?_, ?_,
      fun s' => rfl⟩
    · intro c' f' he
      cases he
      simp [execute_track]
    · intro f' he
      cases he
      simp [execute_track]

/-- Planar pose: x, y and a heading (the planar rotation). -/
structure Pose2 where
  x : ℝ
  y : ℝ
  heading : ℝ

/-- Result of `plan_approach_segment`: the final pose of the planned
track and whether the direct (already-within-offset) branch was taken. -/
structure ApproachPlan where
  target : Pose2
  direct : Bool

/-- Planar distance `np.hypot` between two poses. -/
noncomputable def dist2d (c g : Pose2) : ℝ :=
  Real.sqrt ((g.x - c.x) ^ 2 + (g.y - c.y) ^ 2)

/-- `PathPlanner.plan_approach_segment`: if the planar distance to the
goal is within `offset_m`, plan direct to the goal; otherwise stop at the
point on the current-to-goal line `offset_m` short of the goal, keeping
the current heading. -/
noncomputable def plan_approach_segment (current goal : Pose2)
    (offset_m : ℝ) : ApproachPlan :=
  let dx := goal.x - current.x
  let dy := goal.y - current.y
  let dist := Real.sqrt (dx ^ 2 + dy ^ 2)
  if dist ≤ offset_m then
    ⟨goal, true⟩
  else
    let scale := (dist - offset_m) / dist
    ⟨⟨current.x + dx * scale, current.y + dy * scale, current.heading⟩, false⟩

/-- C5: for every current pose, goal and non-negative offset, if the
planar distance to the goal is at most the offset then the planner
returns the direct segment to the goal; otherwise the returned target
lies on the current-to-goal line, keeps the robot's current heading, and
its planar distance to the goal equals the offset exactly (hence within
1 mm). -/
theorem claim_C5_approach_offset (current goal : Pose2) (offset_m : ℝ)
    (h0 : 0 ≤ offset_m) :
    (dist2d current goal ≤ offset_m →
      plan_approach_segment current goal offset_m = ⟨goal, true⟩) ∧
    (offset_m < dist2d current goal →
      (plan_approach_segment current goal offset_m).direct = false ∧
      (plan_approach_segment current goal offset_m).target.heading
        = current.heading ∧
      dist2d (plan_approach_segment current goal offset_m).target goal
        = offset_m ∧
      ∃ s, 0 ≤ s ∧ s ≤ 1 ∧
        (plan_approach_segment current goal offset_m).target.x
          = current.x + s * (goal.x - current.x) ∧
        (plan_approach_segment current goal offset_m).target.y
          = current.y + s * (goal.y - current.y)) := by
  have hDdef : dist2d current goal =
      Real.sqrt ((goal.x - current.x) ^ 2 + (goal.y - current.y) ^ 2) := rfl
  constructor
  · intro hle
    simp only [plan_approach_segment]
    rw [if_pos (by rw [← hDdef]; exact hle)]
  · intro hlt
    have hDpos : 0 < dist2d current goal := lt_of_le_of_lt h0 hlt
    have hDne : dist2d current goal ≠ 0 := ne_of_gt hDpos
    have hplan : plan_approach_segment current goal offset_m =
        ⟨⟨current.x + (goal.x - current.x) *
            ((dist2d current goal - offset_m) / dist2d current goal),
          current.y + (goal.y - current.y) *
            ((dist2d current goal - offset_m) / dist2d current goal),
          current.heading⟩, false⟩ := by
      simp only [plan_approach_segment]
      rw [if_neg (by rw [← hDdef]; exact not_le.mpr hlt), hDdef]
    have hD2 : dist2d current goal ^ 2 =
        (goal.x - current.x) ^ 2 + (goal.y - current.y) ^ 2 := by
      rw [hDdef]
      exact Real.sq_sqrt (by positivity)
    refine ⟨by rw [hplan], by rw [hplan], ?_, ?_⟩
    · rw [hplan]
      show Real.sqrt
          ((goal.x - (current.x + (goal.x - current.x) *
            ((dist2d current goal - offset_m) / dist2d current goal))) ^ 2 +
           (goal.y - (current.y + (goal.y - current.y) *
            ((dist2d current goal - offset_m) / dist2d current goal))) ^ 2)
        = offset_m
      have hgx : goal.x - (current.x + (goal.x - current.x) *
          ((dist2d current goal - offset_m) / dist2d current goal))
          = (goal.x - current.x) * offset_m / dist2d current goal := by
        field_simp
        ring
      have hgy : goal.y - (current.y + (goal.y - current.y) *
          ((dist2d current goal - offset_m) / dist2d current goal))
          = (goal.y - current.y) * offset_m / dist2d current goal := by
        field_simp
        ring
      rw [hgx, hgy]
      have hsum : ((goal.x - current.x) * offset_m / dist2d current goal) ^ 2 +
          ((goal.y - current.y) * offset_m / dist2d current goal) ^ 2
          = offset_m ^ 2 := by
        have key : ((goal.x - current.x) * offset_m / dist2d current goal) ^ 2 +
            ((goal.y - current.y) * offset_m / dist2d current goal) ^ 2
            = ((goal.x - current.x) ^ 2 + (goal.y - current.y) ^ 2) *
              offset_m ^ 2 / dist2d current goal ^ 2 := by
          ring
        rw [key, ← hD2]
        field_simp
      rw [hsum]
      exact Real.sqrt_sq h0
    · refine ⟨(dist2d current goal - offset_m) / dist2d current goal,
        div_nonneg (by linarith) (le_of_lt hDpos),
        (div_le_one hDpos).mpr (by linarith), ?_, ?_⟩
      · rw [hplan]
        ring
      · rw [hplan]
        ring

/-- C5 witness: from (0,0) heading 7, goal (0,0) is within the 1 m
offset so the planner goes direct; goal (3,4) is 5 m away so the
approach target keeps heading 7 and ends exactly 1 m short of the goal. -/
theorem claim_C5_witness :
    plan_approach_segment ⟨0, 0, 7⟩ ⟨0, 0, 2⟩ 1 = ⟨⟨0, 0, 2⟩, true⟩ ∧
      (plan_approach_segment ⟨0, 0, 7⟩ ⟨3, 4, 9⟩ 1).direct = false ∧
      (plan_approach_segment ⟨0, 0, 7⟩ ⟨3, 4, 9⟩ 1).target.heading = 7 ∧
      dist2d (plan_approach_segment ⟨0, 0, 7⟩ ⟨3, 4, 9⟩ 1).target ⟨3, 4, 9⟩
        = 1 := by
  have hd1 : dist2d ⟨0, 0, 7⟩ ⟨0, 0, 2⟩ = 0 := by
    show Real.sqrt (((0:ℝ) - 0) ^ 2 + ((0:ℝ) - 0) ^ 2) = 0
    norm_num
  have hd2 : dist2d ⟨0, 0, 7⟩ ⟨3, 4, 9⟩ = 5 := by
    show Real.sqrt (((3:ℝ) - 0) ^ 2 + ((4:ℝ) - 0) ^ 2) = 5
    rw [show ((3:ℝ) - 0) ^ 2 + ((4:ℝ) - 0) ^ 2 = 5 ^ 2 by norm_num]
    exact Real.sqrt_sq (by norm_num)
  obtain ⟨hA0, _⟩ := claim_C5_approach_offset ⟨0, 0, 7⟩ ⟨0, 0, 2⟩ 1 (by norm_num)
  obtain ⟨_, hB⟩ := claim_C5_approach_offset ⟨0, 0, 7⟩ ⟨3, 4, 9⟩ 1 (by norm_num)
  have hB' := hB (by rw [hd2]; norm_num)
  exact ⟨hA0 (by rw [hd1]; norm_num), hB'.1, hB'.2.1, hB'.2.2.1⟩

/-- Row-end configuration of the planner (`NavigationConfig` fields
used by `plan_row_end_maneuver`). -/
structure RowEndConfig where
  headland_buffer_m : ℝ
  row_spacing_m : ℝ
  turn_direction : String

/-- Kind of a planned track segment. -/
inductive SegKind where
  | straight
  | turn
deriving DecidableEq, Repr

/-- A planned row-end segment: kind, frame name, magnitude (distance in
meters for straight, angle in radians for turn) and waypoint spacing. -/
structure Segment where
  kind : SegKind
  name : String
  magnitude : ℝ
  spacing : ℝ

/-- The signed 90 degree turn angle, `np.radians(90)` times +1 for
"left" and -1 otherwise. -/
noncomputable def turnAngle (cfg : RowEndConfig) : ℝ :=
  (Real.pi / 2) * (if cfg.turn_direction = "left" then 1 else -1)

/-- `PathPlanner.plan_row_end_maneuver`: takes the current internal
1..4 segment index and returns the planned track (a list of segments)
together with the new index; an index above 4 returns no track and
resets the index to 1. An index outside 1..4 but not above 4 (never
reached from the reset state) yields an empty track. -/
noncomputable def plan_row_end_maneuver (cfg : RowEndConfig) (idx : ℕ) :
    Option (List Segment) × ℕ :=
  if idx > 4 then (none, 1)
  else
    (some
      (if idx = 1 then [⟨.straight, "row_end_1", cfg.headland_buffer_m, 0.5⟩]
       else if idx = 2 then [⟨.turn, "row_end_2", turnAngle cfg, 0.15⟩]
       else if idx = 3 then [⟨.straight, "row_end_3", cfg.row_spacing_m, 0.5⟩]
       else if idx = 4 then [⟨.turn, "row_end_4", turnAngle cfg, 0.15⟩]
       else []),
     idx + 1)

/-- C6: for every configuration, four successive calls starting from the
reset index 1 return one-segment tracks of kinds straight, turn,
straight, turn while advancing the internal index 1..4; the fifth call
returns no track and resets the index to 1 for the next maneuver. -/
theorem claim_C6_row_end_sequence (cfg : RowEndConfig) :
    (plan_row_end_maneuver cfg 1).2 = 2 ∧
      ((plan_row_end_maneuver cfg 1).1.map (List.map Segment.kind)
        = some [.straight]) ∧
      (plan_row_end_maneuver cfg 2).2 = 3 ∧
      ((plan_row_end_maneuver cfg 2).1.map (List.map Segment.kind)
        = some [.turn]) ∧
      (plan_row_end_maneuver cfg 3).2 = 4 ∧
      ((plan_row_end_maneuver cfg 3).1.map (List.map Segment.kind)
        = some [.straight]) ∧
      (plan_row_end_maneuver cfg 4).2 = 5 ∧
      ((plan_row_end_maneuver cfg 4).1.map (List.map Segment.kind)
        = some [.turn]) ∧
      (plan_row_end_maneuver cfg 5).1 = none ∧
      (plan_row_end_maneuver cfg 5).2 = 1 := by
  refine ⟨rfl, rfl, rfl, rfl, rfl, rfl, rfl, rfl, rfl, rfl⟩

/-- C8 witness: with dirty prior latches, a failed-only wait returns
false, a complete wait returns true, and a timeout run ends in cancel. -/
theorem claim_C8_witness :
    ((execute_track ⟨true, true⟩ (.latched false true)).1 = false) ∧
      ((execute_track ⟨true, true⟩ (.latched true false)).1 = true) ∧
      ((execute_track ⟨true, true⟩ .timeout).2.2 =
        [.clearLatches, .setTrack, .sleepSettle, .start, .waitLatches,
          .cancel]) :=
  ⟨(claim_C8_execute_track_protocol ⟨true, true⟩
      (.latched false true)).2.2.2.1 true rfl,
   ((claim_C8_execute_track_protocol ⟨true, true⟩
      (.latched true false)).2.2.1 true false rfl).mpr rfl,
   by simpa using (claim_C8_execute_track_protocol ⟨true, true⟩ .timeout).1⟩

/-- Header normalization of the loader,
`df.columns.str.strip().str.lower()`: drop leading and trailing
whitespace, lower-case the rest. -/
def normHeader (s : String) : String :=
  String.mk
    (((s.data.dropWhile Char.isWhitespace).reverse.dropWhile
        Char.isWhitespace).reverse.map Char.toLower)

/-- The tabular pattern source after CSV parsing: a header row and data
rows of numeric cells (each row read positionally per column). -/
structure WaypointTable where
  headers : List String
  rows : List (List ℚ)

/-- Position of a named column after header normalization, if present. -/
def findColumn (t : WaypointTable) (name : String) : Option ℕ :=
  (t.headers.map normHeader).indexOf? name

/-- The values of column `c` down the data rows. -/
def colValues (t : WaypointTable) (c : ℕ) : List ℚ :=
  t.rows.map fun r => r.getD c 0

/-- Four-quadrant arctangent `np.arctan2`. -/
noncomputable def atan2 (yv xv : ℝ) : ℝ :=
  if 0 < xv then Real.arctan (yv / xv)
  else if xv < 0 then
    (if 0 ≤ yv then Real.arctan (yv / xv) + Real.pi
     else Real.arctan (yv / xv) - Real.pi)
  else
    (if 0 < yv then Real.pi / 2
     else if yv < 0 then -(Real.pi / 2)
     else 0)

/-- `CoordinateTransforms._infer_yaw_from_path`: forward differences,
backward difference for the last waypoint, and a backward-difference
override at the configured last-row waypoint when its index is in range
and not the first point. -/
noncomputable def inferYaw (north west : List ℝ) (lastRowIndex : ℤ) :
    List ℝ :=
  let n := north.length
  if n ≤ 1 then List.replicate n 0
  else
    let step : ℕ → ℝ := fun i =>
      if i + 1 < n then
        atan2 (west.getD (i + 1) 0 - west.getD i 0)
          (north.getD (i + 1) 0 - north.getD i 0)
      else
        atan2 (west.getD (n - 1) 0 - west.getD (n - 2) 0)
          (north.getD (n - 1) 0 - north.getD (n - 2) 0)
    let baseYaw := (List.range n).map step
    if 1 < lastRowIndex ∧ lastRowIndex ≤ (n : ℤ) then
      let idx := (lastRowIndex - 1).toNat
      listModify
        (fun _ =>
          atan2 (west.getD idx 0 - west.getD (idx - 1) 0)
            (north.getD idx 0 - north.getD (idx - 1) 0))
        idx baseYaw
    else baseYaw

/-- `CoordinateTransforms.load_waypoints_from_csv`: looks up the `dy`
column then the `dx` column (a missing column raises KeyError), converts
ENU to NWU (north = dy, west = -dx), takes yaw from `yaw_deg` (degrees
to radians) when present and otherwise infers it from the path, and
returns the waypoints keyed from 1. -/
noncomputable def load_waypoints_from_csv (t : WaypointTable)
    (lastRowIndex : ℤ) : Except String (List (ℕ × ℝ × ℝ × ℝ)) :=
  match findColumn t "dy" with
  | none => .error "KeyError: dy"
  | some cdy =>
    match findColumn t "dx" with
    | none => .error "KeyError: dx"
    | some cdx =>
      let north : List ℝ := (colValues t cdy).map fun q => (q : ℝ)
      let west : List ℝ := (colValues t cdx).map fun q => -(q : ℝ)
      let yaw : List ℝ :=
        match findColumn t "yaw_deg" with
        | some cyaw =>
          (colValues t cyaw).map fun q => (q : ℝ) * Real.pi / 180
        | none => inferYaw north west lastRowIndex
      .ok (List.enumFrom 1 (north.zip (west.zip yaw)))

/-- C9 (amended): loading waypoints from a table missing the dx or dy
column fails (the KeyError surfaces and aborts setup), but loading from
an empty table — required headers present, no data rows — succeeds with
zero waypoints instead of failing. -/
theorem claim_C9_amended_loader_failure (t : WaypointTable)
    (lastRowIndex : ℤ) :
    (findColumn t "dy" = none ∨ findColumn t "dx" = none →
      ∃ msg, load_waypoints_from_csv t lastRowIndex = .error msg) ∧
    (∀ cdy cdx, findColumn t "dy" = some cdy → findColumn t "dx" = some cdx →
      t.rows = [] → load_waypoints_from_csv t lastRowIndex = .ok []) := by
  constructor
  · rintro (hdy | hdx)
    · exact ⟨"KeyError: dy", by simp [load_waypoints_from_csv, hdy]⟩
    · cases hdy : findColumn t "dy" with
      | none => exact ⟨"KeyError: dy", by simp [load_waypoints_from_csv, hdy]⟩
      | some cdy =>
        exact ⟨"KeyError: dx", by
          simp [load_waypoints_from_csv, hdy, hdx]⟩
  · intro cdy cdx hdy hdx hrows
    simp [load_waypoints_from_csv, hdy, hdx, colValues, hrows]

/-- C9 counterexample: an empty table whose header row has both required
columns loads successfully as zero waypoints — no BadInput-style failure
occurs. -/
theorem claim_C9_counterexample :
    load_waypoints_from_csv ⟨["dx", "dy"], []⟩ 3 = .ok [] := by
  have hdy : findColumn ⟨["dx", "dy"], []⟩ "dy" = some 1 := by decide
  have hdx : findColumn ⟨["dx", "dy"], []⟩ "dx" = some 0 := by decide
  simp [load_waypoints_from_csv, hdy, hdx, colValues]

/-- C9 witness: the amended theorem at a table missing dy, and at an
empty table with both required headers. -/
theorem claim_C9_witness :
    (∃ msg, load_waypoints_from_csv ⟨["dx"], [[1]]⟩ 3 = .error msg) ∧
      load_waypoints_from_csv ⟨["dx", "dy", "extra"], []⟩ 3 = .ok [] :=
  ⟨(claim_C9_amended_loader_failure ⟨["dx"], [[1]]⟩ 3).1 (Or.inl (by decide)),
   (claim_C9_amended_loader_failure ⟨["dx", "dy", "extra"], []⟩ 3).2
     1 0 (by decide) (by decide) rfl⟩
